import Mathlib

/-!
Verification of the Mkhedruli flashcard quiz (`anbani.py`) against its
natural-language specification.

The script is embedded shallowly:

* Python dicts become ordered association lists (`List (String × _)`),
  looked up with `List.lookup` (first match, as in a dict with unique keys).
* The `avg_time` field of a stat record is three-valued, mirroring the
  three states the code distinguishes: key absent from the record
  (`.missing`, the `"avg_time" not in stats[character]` test), key present
  with Python `None` (`.null`), or a numeric value (`.val t`).
* Machine floats are modelled as exact rationals (`ℚ`) for the persisted
  data and as reals (`ℝ`) for the weight computation, whose `** exponent`
  is real `rpow`.
* The stats file is a `FileState`: absent, present-but-unparsable, or
  present with a well-typed JSON stats object (represented directly as
  the typed map it parses to).
* Python exceptions (`TypeError`, `ZeroDivisionError`, `ValueError`,
  `KeyError`, `SystemExit`) become `Except PyErr` / `Option` results.
* Randomness (`random.choices`, `random.sample`, `random.shuffle`) is
  modelled by oracle parameters: the drawn value, the sampled index list,
  and the resulting permutation are inputs, constrained exactly as the
  library functions constrain them.
-/

namespace Anbani

/-- The three states of the `avg_time` field of a per-character record:
the key can be absent from the dict, present with value `None`, or
present with a number. -/
inductive AvgTime where
  | missing : AvgTime
  | null : AvgTime
  | val : ℚ → AvgTime
deriving DecidableEq, Repr

/-- A per-character stat record `{correct: .., incorrect: .., avg_time: ..}`. -/
structure StatRecord where
  correct : ℕ
  incorrect : ℕ
  avg_time : AvgTime
deriving DecidableEq, Repr

/-- The in-memory stats dict: an ordered association list keyed by glyph. -/
abbrev StatsMap := List (String × StatRecord)

/-- The Georgian alphabet table `mkhedruli_alphabet` of the script:
33 glyphs mapped to display names, in source order. -/
def mkhedruli_alphabet : List (String × String) :=
  [ ("ა", "[a]   ani"),
    ("ბ", "[b]   bani"),
    ("გ", "[g]   gani"),
    ("დ", "[d]   doni"),
    ("ე", "[ɛ]   eni"),
    ("ვ", "[v]   vini"),
    ("ზ", "[z]   zeni"),
    ("თ", "[tʰ]  tani"),
    ("ი", "[i]   ini"),
    ("კ", "[kʼ]  k\x27ani"),
    ("ლ", "[l]   lasi"),
    ("მ", "[m]   mani"),
    ("ნ", "[n]   nari"),
    ("ო", "[o]   oni"),
    ("პ", "[pʼ]  p\x27ari"),
    ("ჟ", "[ʒ]   zhani"),
    ("რ", "[r]   rae"),
    ("ს", "[s]   sani"),
    ("ტ", "[tʼ]  t\x27ari"),
    ("უ", "[u]   uni"),
    ("ფ", "[pʰ]  pari"),
    ("ქ", "[kʰ]  kani"),
    ("ღ", "[ɣ]   ghani"),
    ("ყ", "[qʼ]  q\x27ari"),
    ("შ", "[ʃ]   shini"),
    ("ჩ", "[t͡ʃʰ] chini"),
    ("ც", "[t͡sʰ] tsani"),
    ("ძ", "[d͡z]  dzili"),
    ("წ", "[t͡sʼ] ts\x27ili"),
    ("ჭ", "[t͡ʃʼ] ch\x27ari"),
    ("ხ", "[x]   khani"),
    ("ჯ", "[d͡ʒ]  jani"),
    ("ჰ", "[h]   hae") ]

/-- The configured option count `num_options = 5`. -/
def num_options : ℕ := 5

/-- The designated exit key `EXIT_KEY = "0"` (a single character). -/
def EXIT_KEY : Char := '0'

/-- State of the stats file on disk: absent, present but not parsable as
JSON, or present with a valid JSON stats object (represented as the typed
map it parses to). -/
inductive FileState where
  | absent : FileState
  | invalid : FileState
  | valid : StatsMap → FileState
deriving DecidableEq, Repr

/-- The fresh all-zero map built by the dict comprehension in
`load_stats`: every alphabet glyph maps to
`{"correct": 0, "incorrect": 0, "avg_time": None}`. -/
def fresh_stats : StatsMap :=
  mkhedruli_alphabet.map (fun p => (p.1, ⟨0, 0, AvgTime.null⟩))

/-- `load_stats`: reads the file if present and parsable, returning its
content untouched; on a `JSONDecodeError` it removes the file; in the
absent and unparsable cases it returns the fresh all-zero map. The
result pairs the post-call file state with the returned map. -/
def load_stats : FileState → FileState × StatsMap
  | FileState.absent => (FileState.absent, fresh_stats)
  | FileState.invalid => (FileState.absent, fresh_stats)
  | FileState.valid m => (FileState.valid m, m)

/-- `save_stats`: serializes the full map to the file, overwriting it. -/
def save_stats (stats : StatsMap) (_fs : FileState) : FileState :=
  FileState.valid stats

/-- C7. Round-trip: saving a stats map and then loading yields the same
map — identical association list, hence the same keys with the same
record at every key. -/
theorem save_then_load_roundtrip (stats : StatsMap) (fs : FileState) :
    (load_stats (save_stats stats fs)).2 = stats ∧
    ∀ c : String, List.lookup c (load_stats (save_stats stats fs)).2 =
      List.lookup c stats := by
  exact ⟨rfl, fun _ => rfl⟩

/-- C4 counterexample. The empty JSON object `{}` is a valid file whose
keys are a proper subset of the alphabet's keys, yet `load_stats` returns
it unchanged: the glyph `"ა"` is not present in the loaded map at all,
contradicting the claim that absent alphabet characters are initialized
with zero counts on load. -/
theorem load_valid_empty_missing_glyph :
    (load_stats (FileState.valid [])).2 = [] ∧
    List.lookup "ა" (load_stats (FileState.valid [])).2 = none := by
  exact ⟨rfl, rfl⟩

/-- C4 amended. For a file holding valid JSON, `load_stats` returns the
parsed map exactly as stored, leaving the file untouched; characters
absent from the file are not added. (The all-zero initialization happens
only when the file is absent or unparsable.) -/
theorem load_valid_is_identity (m : StatsMap) :
    load_stats (FileState.valid m) = (FileState.valid m, m) := by
  rfl

/-- C5. If the file exists but cannot be parsed as JSON, `load_stats`
deletes it and returns the fresh map; if the file is absent it returns
the same fresh map; and in that fresh map every alphabet character is
present with zero correct and incorrect counts (and `avg_time = None`). -/
theorem load_invalid_or_absent_fresh :
    load_stats FileState.invalid = (FileState.absent, fresh_stats) ∧
    load_stats FileState.absent = (FileState.absent, fresh_stats) ∧
    ∀ c : String, (List.lookup c mkhedruli_alphabet).isSome →
      List.lookup c fresh_stats = some ⟨0, 0, AvgTime.null⟩ := by
  refine ⟨rfl, rfl, ?_⟩
  intro c hc
  unfold fresh_stats
  unfold mkhedruli_alphabet at hc ⊢
  simp only [List.lookup, List.map] at hc ⊢
  repeat' split
  all_goals simp_all

/-- C5 witness: the fresh map holds an all-zero record for `"ა"`. -/
theorem load_invalid_or_absent_fresh_witness :
    List.lookup "ა" fresh_stats = some ⟨0, 0, AvgTime.null⟩ :=
  load_invalid_or_absent_fresh.2.2 "ა" (by decide)

/-- Python exceptions that the modelled fragments can raise. -/
inductive PyErr where
  | typeError : PyErr
  | zeroDivisionError : PyErr
  | valueError : PyErr
  | keyError : PyErr
  | indexError : PyErr
deriving DecidableEq, Repr

/-- The loop body of `calculate_error_rates` for one record: if
`correct + incorrect > 0` the rate is `(incorrect/total) ** exponent`
(real `rpow`), otherwise `default_error_rate`. -/
noncomputable def error_rate (stat : StatRecord)
    (exponent default_error_rate : ℝ) : ℝ :=
  let total_attempts := stat.correct + stat.incorrect
  if 0 < total_attempts then
    ((stat.incorrect : ℝ) / (total_attempts : ℝ)) ^ exponent
  else default_error_rate

/-- `calculate_error_rates`: maps every entry of the stats dict to its
error rate, keeping the keys. -/
noncomputable def calculate_error_rates (stats : StatsMap)
    (exponent default_error_rate : ℝ) : List (String × ℝ) :=
  stats.map (fun p => (p.1, error_rate p.2 exponent default_error_rate))

/-- `stat.get("avg_time", 0)`: the default `0` is used only when the key
is absent; a key present with `None` yields Python `None`. -/
def avg_time_get : StatRecord → Option ℚ
  | ⟨_, _, AvgTime.missing⟩ => some 0
  | ⟨_, _, AvgTime.null⟩ => none
  | ⟨_, _, AvgTime.val t⟩ => some t

/-- Python `x > y` on values that are numbers or `None`: comparing with
`None` on either side raises `TypeError`. -/
def pyGT : Option ℚ → Option ℚ → Except PyErr Bool
  | some x, some y => Except.ok (decide (y < x))
  | _, _ => Except.error PyErr.typeError

/-- The fold inside Python `max`: keep the current best, replacing it
whenever the next element compares greater. -/
def pyMaxGo : Option ℚ → List (Option ℚ) → Except PyErr (Option ℚ)
  | best, [] => Except.ok best
  | best, x :: xs =>
    match pyGT x best with
    | Except.error e => Except.error e
    | Except.ok b => pyMaxGo (if b then x else best) xs

/-- Python `max` over a list of numbers-or-`None`: empty input raises
`ValueError`; a single element is returned without any comparison; with
two or more elements every comparison can raise `TypeError`. -/
def pyMax : List (Option ℚ) → Except PyErr (Option ℚ)
  | [] => Except.error PyErr.valueError
  | x :: xs => pyMaxGo x xs

/-- Python division on numbers-or-`None`: `None` on either side raises
`TypeError`; dividing by zero raises `ZeroDivisionError`. -/
def pyDiv : Option ℚ → Option ℚ → Except PyErr ℚ
  | some x, some y =>
    if y = 0 then Except.error PyErr.zeroDivisionError else Except.ok (x / y)
  | _, _ => Except.error PyErr.typeError

/-- The `avg_times` dict comprehension of `choose_character`:
`(stat.get("avg_time", 0) / max_avg_time) ** time_factor` per entry
(real `rpow`; avg times are nonnegative in every run of the script). -/
noncomputable def avg_times_calc (stats : StatsMap) (max_avg_time : Option ℚ)
    (time_factor : ℝ) : Except PyErr (List (String × ℝ)) :=
  stats.mapM (fun p =>
    (pyDiv (avg_time_get p.2) max_avg_time).map
      (fun q => (p.1, ((q : ℝ)) ^ time_factor)))

/-- Python dict subscript `d[k]`: raises `KeyError` when absent. -/
def dict_get (l : List (String × ℝ)) (k : String) : Except PyErr ℝ :=
  match List.lookup k l with
  | some v => Except.ok v
  | none => Except.error PyErr.keyError

/-- The `weights` list of `choose_character`:
`error_rates[char] + avg_times[char]` for every alphabet key. -/
def weights_calc (ers ats : List (String × ℝ)) : Except PyErr (List ℝ) :=
  mkhedruli_alphabet.mapM (fun p => do
    let e ← dict_get ers p.1
    let a ← dict_get ats p.1
    pure (e + a))

/-- Insertion point of `x` in the first `hi` cumulative weights, as
`bisect.bisect` computes it on the sorted cumulative sums arising from
nonnegative weights. -/
noncomputable def bisect_right (l : List ℝ) (x : ℝ) (hi : ℕ) : ℕ :=
  ((l.take hi).takeWhile (fun c => decide (c ≤ x))).length

/-- `random.choices(items, weights, k=1)[0]`: the random draw
`random()` is the oracle `r ∈ [0,1)`. Empty weights raise `IndexError`
(the `cum_weights[-1]` access); a nonpositive total raises `ValueError`;
otherwise the item at the bisected index of `r * total` is returned. -/
noncomputable def weighted_random_choice (items : List String)
    (weights : List ℝ) (r : ℝ) : Except PyErr String :=
  let cum := (weights.scanl (· + ·) 0).drop 1
  match cum.getLast? with
  | none => Except.error PyErr.indexError
  | some total =>
    if total ≤ 0 then Except.error PyErr.valueError
    else Except.ok (items.getD (bisect_right cum (r * total) (items.length - 1)) "")

/-- `choose_character`: error rates, then `max` of the raw `avg_time`
values, then the normalized time weights, then the summed weights over
the alphabet keys, then the weighted draw (oracle `r`). Any Python
exception on the way propagates. -/
noncomputable def choose_character (stats : StatsMap)
    (exponent time_factor : ℝ) (r : ℝ) : Except PyErr String :=
  let error_rates := calculate_error_rates stats exponent (1/2)
  match pyMax (stats.map (fun p => avg_time_get p.2)) with
  | Except.error e => Except.error e
  | Except.ok max_avg_time =>
    match avg_times_calc stats max_avg_time time_factor with
    | Except.error e => Except.error e
    | Except.ok avg_times =>
      match weights_calc error_rates avg_times with
      | Except.error e => Except.error e
      | Except.ok weights =>
        weighted_random_choice (mkhedruli_alphabet.map Prod.fst) weights r

/-- C1. On the freshly initialized stats map returned by `load_stats`
(no stats file), every `avg_time` is `None`, so the `max` over the 33
`avg_time` values compares `None` with `None` and raises `TypeError`:
`choose_character` fails instead of returning a character, for every
exponent, time factor and random draw. -/
theorem choose_character_fresh_typeError (exponent time_factor r : ℝ) :
    choose_character (load_stats FileState.absent).2 exponent time_factor r =
      Except.error PyErr.typeError := by
  rfl

/-- With exponent `0.5`, a record with at least one attempt has error
rate `sqrt (incorrect / total)`. -/
theorem error_rate_eq_sqrt (r : StatRecord) (h : 0 < r.correct + r.incorrect) :
    error_rate r (1/2) (1/2) =
      Real.sqrt ((r.incorrect : ℝ) / ((r.correct + r.incorrect : ℕ) : ℝ)) := by
  rw [Real.sqrt_eq_rpow]
  simp [error_rate, h]

/-- C2. With exponent `0.5` and default `0.5`: a record with
`correct + incorrect = 0` gets the default `0.5`, any other record gets
`(incorrect/total) ^ 0.5 = sqrt (incorrect/total)`; in particular
`{correct:0, incorrect:0}` yields `0.5`, `{correct:1, incorrect:1}`
yields `sqrt (1/2)`, and `{correct:9, incorrect:1}` yields
`sqrt (1/10)`. -/
theorem error_rate_spec :
    (∀ r : StatRecord, r.correct + r.incorrect = 0 →
      error_rate r (1/2) (1/2) = 1/2) ∧
    (∀ r : StatRecord, r.correct + r.incorrect ≠ 0 →
      error_rate r (1/2) (1/2) =
        Real.sqrt ((r.incorrect : ℝ) / ((r.correct + r.incorrect : ℕ) : ℝ))) ∧
    error_rate ⟨0, 0, AvgTime.null⟩ (1/2) (1/2) = 1/2 ∧
    error_rate ⟨1, 1, AvgTime.null⟩ (1/2) (1/2) = Real.sqrt (1/2) ∧
    error_rate ⟨9, 1, AvgTime.null⟩ (1/2) (1/2) = Real.sqrt (1/10) := by
  have h0 : ∀ r : StatRecord, r.correct + r.incorrect = 0 →
      error_rate r (1/2) (1/2) = 1/2 := by
    intro r h
    simp [error_rate, h]
  refine ⟨h0, fun r h => error_rate_eq_sqrt r (Nat.pos_of_ne_zero h), h0 _ rfl, ?_, ?_⟩
  · rw [error_rate_eq_sqrt ⟨1, 1, AvgTime.null⟩ (by decide)]
    norm_num
  · rw [error_rate_eq_sqrt ⟨9, 1, AvgTime.null⟩ (by decide)]
    norm_num

/-- C2 witness: the zero-attempt record evaluates to the default. -/
theorem error_rate_spec_witness :
    (⟨0, 0, AvgTime.null⟩ : StatRecord).correct +
      (⟨0, 0, AvgTime.null⟩ : StatRecord).incorrect = 0 ∧
    error_rate ⟨0, 0, AvgTime.null⟩ (1/2) (1/2) = 1/2 :=
  ⟨rfl, error_rate_spec.1 ⟨0, 0, AvgTime.null⟩ rfl⟩

/-- C9. The error rate with exponent `0.5` is monotone in the incorrect
ratio: between two records with at least one attempt each, a smaller or
equal ratio `incorrect/total` gives a smaller or equal error rate. -/
theorem error_rate_monotone (r1 r2 : StatRecord)
    (h1 : 0 < r1.correct + r1.incorrect) (h2 : 0 < r2.correct + r2.incorrect)
    (hr : (r1.incorrect : ℝ) / ((r1.correct + r1.incorrect : ℕ) : ℝ) ≤
          (r2.incorrect : ℝ) / ((r2.correct + r2.incorrect : ℕ) : ℝ)) :
    error_rate r1 (1/2) (1/2) ≤ error_rate r2 (1/2) (1/2) := by
  rw [error_rate_eq_sqrt r1 h1, error_rate_eq_sqrt r2 h2]
  exact Real.sqrt_le_sqrt hr

/-- C9 witness: `{correct:9, incorrect:1}` has ratio `1/10 ≤ 1/2`, the
ratio of `{correct:1, incorrect:1}`, and a smaller error rate. -/
theorem error_rate_monotone_witness :
    (((⟨9, 1, AvgTime.null⟩ : StatRecord).incorrect : ℝ) /
        (((⟨9, 1, AvgTime.null⟩ : StatRecord).correct +
          (⟨9, 1, AvgTime.null⟩ : StatRecord).incorrect : ℕ) : ℝ) ≤
      ((⟨1, 1, AvgTime.null⟩ : StatRecord).incorrect : ℝ) /
        (((⟨1, 1, AvgTime.null⟩ : StatRecord).correct +
          (⟨1, 1, AvgTime.null⟩ : StatRecord).incorrect : ℕ) : ℝ)) ∧
    error_rate ⟨9, 1, AvgTime.null⟩ (1/2) (1/2) ≤
      error_rate ⟨1, 1, AvgTime.null⟩ (1/2) (1/2) := by
  have hr : (((⟨9, 1, AvgTime.null⟩ : StatRecord).incorrect : ℝ) /
        (((⟨9, 1, AvgTime.null⟩ : StatRecord).correct +
          (⟨9, 1, AvgTime.null⟩ : StatRecord).incorrect : ℕ) : ℝ) ≤
      ((⟨1, 1, AvgTime.null⟩ : StatRecord).incorrect : ℝ) /
        (((⟨1, 1, AvgTime.null⟩ : StatRecord).correct +
          (⟨1, 1, AvgTime.null⟩ : StatRecord).incorrect : ℕ) : ℝ)) := by
    norm_num
  exact ⟨hr, error_rate_monotone ⟨9, 1, AvgTime.null⟩ ⟨1, 1, AvgTime.null⟩
    (by decide) (by decide) hr⟩

/-- The list `mkhedruli_alphabet.values()` in source order. -/
def alphabet_names : List String := mkhedruli_alphabet.map Prod.snd

/-- The 33 display names are pairwise distinct. -/
theorem alphabet_names_nodup : alphabet_names.Nodup := by decide

/-- `random.sample(l, k)` with the drawn index list as oracle: valid
oracles are `k` pairwise-distinct in-range positions, and the sample is
the list of elements at those positions. -/
def pySample (l : List String) (k : ℕ) (idxs : List ℕ) : Option (List String) :=
  if idxs.length = k ∧ idxs.Nodup ∧ ∀ i ∈ idxs, i < l.length then
    some (idxs.filterMap (fun i => l.get? i))
  else none

/-- Lines 128–129 of `main`: the correct label followed by
`num_options - 1` labels sampled from the labels different from it.
(`random.shuffle` at line 130 is modelled by quantifying over all
permutations of this list.) -/
def build_options (correct_name : String) (idxs : List ℕ) : Option (List String) :=
  (pySample (alphabet_names.filter (fun n => decide (n ≠ correct_name)))
      (num_options - 1) idxs).map
    (fun incorrect_names => correct_name :: incorrect_names)

/-- Selecting pairwise-distinct positions of a list keeps the selected
values' count of length. -/
theorem filterMap_get?_length (l : List String) (idxs : List ℕ)
    (hb : ∀ i ∈ idxs, i < l.length) :
    (idxs.filterMap (fun i => l.get? i)).length = idxs.length := by
  induction idxs with
  | nil => simp
  | cons i is ih =>
    have hi : i < l.length := hb i (by simp)
    rw [List.filterMap_cons, List.get?_eq_get hi]
    simp only [List.length_cons]
    rw [ih (fun j hj => hb j (by simp [hj]))]

/-- Values selected at pairwise-distinct positions of a duplicate-free
list are pairwise distinct. -/
theorem filterMap_get?_nodup (l : List String) (idxs : List ℕ)
    (hl : l.Nodup) (hnd : idxs.Nodup) :
    (idxs.filterMap (fun i => l.get? i)).Nodup := by
  refine List.Nodup.filterMap ?_ hnd
  intro a a' b hb hb'
  have ha : l.get? a = some b := hb
  have ha' : l.get? a' = some b := hb'
  have haa : a < l.length := by
    by_contra hcon
    rw [List.get?_eq_none.mpr (Nat.le_of_not_lt hcon)] at ha
    cases ha
  exact List.get?_inj haa hl (ha.trans ha'.symm)

/-- C6. A successfully built option list has length `num_options = 5`,
contains the correct label exactly once, its tail (the distractors) is a
list of pairwise-distinct labels of other alphabet characters, and any
shuffle of it is a permutation of the correct label plus those
distractors. -/
theorem build_options_spec (correct_name : String) (idxs : List ℕ)
    (opts0 opts : List String)
    (hb : build_options correct_name idxs = some opts0)
    (hp : opts.Perm opts0) :
    opts.length = num_options ∧
    opts.count correct_name = 1 ∧
    opts0.tail.Nodup ∧
    (∀ d ∈ opts0.tail, d ∈ alphabet_names ∧ d ≠ correct_name) ∧
    opts.Perm (correct_name :: opts0.tail) := by
  unfold build_options pySample at hb
  set fl := alphabet_names.filter (fun n => decide (n ≠ correct_name)) with hfl
  split at hb
  case isFalse => cases hb
  case isTrue hcond =>
    obtain ⟨hk, hnd, hbd⟩ := hcond
    rw [Option.map_some'] at hb
    set incs := idxs.filterMap (fun i => fl.get? i) with hincs
    have hopts0 : opts0 = correct_name :: incs := by
      cases hb
      rfl
    have hmem : ∀ d ∈ incs, d ∈ alphabet_names ∧ d ≠ correct_name := by
      intro d hd
      rw [hincs] at hd
      rw [List.mem_filterMap] at hd
      obtain ⟨i, _, hi⟩ := hd
      have : d ∈ fl := List.get?_mem hi
      rw [hfl, List.mem_filter] at this
      exact ⟨this.1, by simpa using this.2⟩
    have hnotin : correct_name ∉ incs := by
      intro hc
      exact (hmem correct_name hc).2 rfl
    have hlen : incs.length = num_options - 1 := by
      rw [hincs, filterMap_get?_length fl idxs hbd, hk]
    refine ⟨?_, ?_, ?_, ?_, ?_⟩
    · rw [hp.length_eq, hopts0]
      simp [hlen, num_options]
    · rw [hp.count_eq, hopts0, List.count_cons_self,
        List.count_eq_zero.mpr hnotin]
    · rw [hopts0]
      exact filterMap_get?_nodup fl idxs (alphabet_names_nodup.filter _) hnd
    · rw [hopts0]
      exact hmem
    · rw [hopts0] at hp ⊢
      simpa using hp

/-- C6 witness: for the glyph `"ა"` with sample positions `[0,1,2,3]`
and the identity shuffle, the option list is the five labels starting
with the correct one, satisfying every conjunct. -/
theorem build_options_spec_witness :
    build_options "[a]   ani" [0, 1, 2, 3] =
      some ["[a]   ani", "[b]   bani", "[g]   gani", "[d]   doni", "[ɛ]   eni"] ∧
    (["[a]   ani", "[b]   bani", "[g]   gani", "[d]   doni", "[ɛ]   eni"].length
        = num_options ∧
      ["[a]   ani", "[b]   bani", "[g]   gani", "[d]   doni",
        "[ɛ]   eni"].count "[a]   ani" = 1 ∧
      ["[a]   ani", "[b]   bani", "[g]   gani", "[d]   doni",
        "[ɛ]   eni"].tail.Nodup ∧
      (∀ d ∈ ["[a]   ani", "[b]   bani", "[g]   gani", "[d]   doni",
        "[ɛ]   eni"].tail, d ∈ alphabet_names ∧ d ≠ "[a]   ani") ∧
      List.Perm ["[a]   ani", "[b]   bani", "[g]   gani", "[d]   doni",
        "[ɛ]   eni"]
        ("[a]   ani" :: ["[a]   ani", "[b]   bani", "[g]   gani", "[d]   doni",
          "[ɛ]   eni"].tail)) := by
  have hb : build_options "[a]   ani" [0, 1, 2, 3] =
      some ["[a]   ani", "[b]   bani", "[g]   gani", "[d]   doni", "[ɛ]   eni"] := by
    decide
  exact ⟨hb, build_options_spec "[a]   ani" [0, 1, 2, 3] _ _ hb (List.Perm.refl _)⟩

/-- Round to the nearest integer, ties to even, as Python `round` does. -/
def round_half_even (q : ℚ) : ℤ :=
  let f := ⌊q⌋
  let r := q - f
  if r < 1/2 then f
  else if 1/2 < r then f + 1
  else if f % 2 = 0 then f else f + 1

/-- Python `round(x, 2)`: round to two decimal places, ties to even. -/
def pyRound2 (q : ℚ) : ℚ := (round_half_even (100 * q) : ℚ) / 100

/-- Lines 145–151 of `main`: the `avg_time` update on a correct answer,
applied to `time_diff`. A record without the key first gets
`avg_time = None`; a `None` average is seeded with `time_diff`; an
existing average `p` becomes `round((p + time_diff)/2, 2)`. -/
def update_avg_time : AvgTime → ℚ → AvgTime
  | AvgTime.missing, t => AvgTime.val t
  | AvgTime.null, t => AvgTime.val t
  | AvgTime.val p, t => AvgTime.val (pyRound2 ((p + t) / 2))

/-- The correct-answer branch of the evaluation (lines 143–153):
update the average time, then increment the correct count. -/
def correct_update (r : StatRecord) (time_diff : ℚ) : StatRecord :=
  { r with avg_time := update_avg_time r.avg_time time_diff,
           correct := r.correct + 1 }

/-- The incorrect-answer branch (line 156): increment the incorrect
count only. -/
def incorrect_update (r : StatRecord) : StatRecord :=
  { r with incorrect := r.incorrect + 1 }

/-- Item assignment `stats[c] = f (stats[c])` on the dict: rewrites the
entry at an existing key, raises `KeyError` (`none`) when absent. -/
def upd_stats (m : StatsMap) (c : String) (f : StatRecord → StatRecord) :
    Option StatsMap :=
  match m with
  | [] => none
  | (k, v) :: rest =>
    if k = c then some ((k, f v) :: rest)
    else (upd_stats rest c f).map (fun m2 => (k, v) :: m2)

/-- The loop guard of line 136:
`answer.isdigit() and 1 <= int(answer) <= num_options`. -/
def is_valid_answer (c : Char) : Bool :=
  c.isDigit && decide (1 ≤ c.toNat - 48) && decide (c.toNat - 48 ≤ num_options)

/-- `getch`: return the pressed key, except that the exit key triggers
`sys.exit(0)` inside `getch` itself — modelled as the `error` case,
which propagates like the uncaught `SystemExit`. -/
def getch (c : Char) : Except Unit Char :=
  if c = EXIT_KEY then Except.error () else Except.ok c

/-- Result of the answer-reading loop. -/
inductive ReadRes where
  | exited : ReadRes
  | noInput : ReadRes
  | got : Char → List Char → ReadRes
deriving DecidableEq, Repr

/-- Lines 135–137 of `main`: call `getch` until a valid option digit
arrives; a `SystemExit` raised inside `getch` propagates out. -/
def read_answer : List Char → ReadRes
  | [] => ReadRes.noInput
  | k :: rest =>
    match getch k with
    | Except.error _ => ReadRes.exited
    | Except.ok c =>
      if is_valid_answer c then ReadRes.got c rest else read_answer rest

/-- `int(answer)` for a digit key. -/
def digit_val (c : Char) : ℕ := c.toNat - 48

/-- Lines 140–157 of `main` after the exit-key test: index the options
with `int(answer) - 1` (`IndexError` is `none`), compare with the
correct label, and run the matching update branch on the asked
character's record (`KeyError` is `none`). Returns the new stats map and
the `answered_correctly` flag. -/
def eval_answer (stats : StatsMap) (character correct_name : String)
    (options : List String) (answer : Char) (elapsed : ℚ) :
    Option (StatsMap × Bool) :=
  match options.get? (digit_val answer - 1) with
  | none => none
  | some opt =>
    if opt = correct_name then
      let time_diff := pyRound2 elapsed
      (upd_stats stats character (fun r => correct_update r time_diff)).map
        (fun m => (m, true))
    else
      (upd_stats stats character incorrect_update).map (fun m => (m, false))

/-- Per-question oracle data for one iteration of the session loop: the
character drawn by `choose_character`, the index oracle of
`random.sample`, the permutation oracle of `random.shuffle`, and the
measured elapsed time. -/
structure QStep where
  picked : String
  sample_idxs : List ℕ
  shuffle_idxs : List ℕ
  elapsed : ℚ

/-- `random.shuffle` with its permutation as oracle: a shuffle is a
full-length sample without replacement. -/
def pyShuffle (l : List String) (perm : List ℕ) : Option (List String) :=
  pySample l l.length perm

/-- How a run of the session loop ends: `SystemExit` raised inside
`getch` (no save on the way out), the dead `break` path through the
post-loop `save_stats` and `sys.exit(0)`, or a stuck state (exhausted
fuel/oracle/input, or an uncaught `KeyError`/`IndexError`). -/
inductive RunResult where
  | exitedInGetch : StatsMap → FileState → RunResult
  | exitedAfterLoop : StatsMap → FileState → RunResult
  | stuck : RunResult
deriving DecidableEq, Repr

/-- The `while True` session loop of `main` (lines 125–166), fuelled.
Per iteration: look up the drawn character's label (line 127), build and
shuffle the options (128–130), read keys until a valid digit (135–137),
then the exit-key test (140), the evaluation (142–157), the second
exit-key test (159), and the save-on-correct (162–163). The post-loop
`save_stats`/`sys.exit(0)` (165–166) is reachable only through `break`. -/
def run_main : ℕ → StatsMap → FileState → List QStep → List Char → RunResult
  | 0, _, _, _, _ => RunResult.stuck
  | _ + 1, _, _, [], _ => RunResult.stuck
  | fuel + 1, stats, file, q :: qs, keys =>
    match List.lookup q.picked mkhedruli_alphabet with
    | none => RunResult.stuck
    | some correct_name =>
      match build_options correct_name q.sample_idxs with
      | none => RunResult.stuck
      | some opts0 =>
        match pyShuffle opts0 q.shuffle_idxs with
        | none => RunResult.stuck
        | some options =>
          match read_answer keys with
          | ReadRes.exited => RunResult.exitedInGetch stats file
          | ReadRes.noInput => RunResult.stuck
          | ReadRes.got answer rest =>
            if answer = EXIT_KEY then
              RunResult.exitedAfterLoop stats (save_stats stats file)
            else
              match eval_answer stats q.picked correct_name options answer
                  q.elapsed with
              | none => RunResult.stuck
              | some (stats2, answered_correctly) =>
                if answer = EXIT_KEY then
                  RunResult.exitedAfterLoop stats2 (save_stats stats2 file)
                else
                  run_main fuel stats2
                    (if answered_correctly then save_stats stats2 file else file)
                    qs rest

/-- C8. On a correct answer with recorded time `time_diff`
(`round(end_time - start_time, 2)`): a `None` average is set to
`time_diff`; an existing average `p` becomes
`round((p + time_diff)/2, 2)`; in particular a first correct answer
taking `2.0` seconds sets the average to `2.0` and a second taking
`4.0` seconds updates it to `3.0`. -/
theorem avg_time_update_spec :
    (∀ (r : StatRecord) (t : ℚ), r.avg_time = AvgTime.null →
      (correct_update r t).avg_time = AvgTime.val t) ∧
    (∀ (r : StatRecord) (p t : ℚ), r.avg_time = AvgTime.val p →
      (correct_update r t).avg_time = AvgTime.val (pyRound2 ((p + t) / 2))) ∧
    (correct_update ⟨0, 0, AvgTime.null⟩ 2).avg_time = AvgTime.val 2 ∧
    (correct_update (correct_update ⟨0, 0, AvgTime.null⟩ 2) 4).avg_time =
      AvgTime.val 3 := by
  refine ⟨?_, ?_, rfl, ?_⟩
  · intro r t h
    simp [correct_update, update_avg_time, h]
  · intro r p t h
    simp [correct_update, update_avg_time, h]
  · simp only [correct_update, update_avg_time]
    norm_num [pyRound2, round_half_even]

/-- C8 witness: the first correct answer seeds the average. -/
theorem avg_time_update_spec_witness :
    (⟨0, 0, AvgTime.null⟩ : StatRecord).avg_time = AvgTime.null ∧
    (correct_update ⟨0, 0, AvgTime.null⟩ 2).avg_time = AvgTime.val 2 :=
  ⟨rfl, avg_time_update_spec.1 ⟨0, 0, AvgTime.null⟩ 2 rfl⟩

/-- Updating one key of the dict leaves the lookup of every other key
unchanged. -/
theorem upd_stats_lookup_ne (m : StatsMap) (c c' : String)
    (f : StatRecord → StatRecord) (m2 : StatsMap)
    (h : upd_stats m c f = some m2) (hne : c' ≠ c) :
    List.lookup c' m2 = List.lookup c' m := by
  induction m generalizing m2 with
  | nil => cases h
  | cons kv rest ih =>
    obtain ⟨k, v⟩ := kv
    unfold upd_stats at h
    by_cases hk : k = c
    · rw [if_pos hk] at h
      cases h
      subst hk
      simp [List.lookup, beq_eq_false_iff_ne.mpr hne]
    · rw [if_neg hk] at h
      cases hm : upd_stats rest c f with
      | none => rw [hm] at h; cases h
      | some r2 =>
        rw [hm, Option.map_some'] at h
        cases h
        by_cases hck : c' = k
        · subst hck
          simp [List.lookup]
        · simp [List.lookup, beq_eq_false_iff_ne.mpr hck, ih r2 hm]

/-- Updating one key of the dict applies the update function exactly to
the record looked up at that key. -/
theorem upd_stats_lookup_eq (m : StatsMap) (c : String)
    (f : StatRecord → StatRecord) (m2 : StatsMap) (r : StatRecord)
    (h : upd_stats m c f = some m2) (hr : List.lookup c m = some r) :
    List.lookup c m2 = some (f r) := by
  induction m generalizing m2 with
  | nil => cases h
  | cons kv rest ih =>
    obtain ⟨k, v⟩ := kv
    unfold upd_stats at h
    by_cases hk : k = c
    · rw [if_pos hk] at h
      cases h
      subst hk
      simp [List.lookup] at hr ⊢
      exact congrArg f hr
    · rw [if_neg hk] at h
      cases hm : upd_stats rest c f with
      | none => rw [hm] at h; cases h
      | some r2 =>
        rw [hm, Option.map_some'] at h
        cases h
        have hne : c ≠ k := fun hc => hk hc.symm
        simp [List.lookup, beq_eq_false_iff_ne.mpr hne] at hr ⊢
        exact ih r2 hm hr

/-- C10. The evaluation of an answered question mutates only the asked
character's record: every other key looks up unchanged, and on an
incorrect answer the asked record changes only by incrementing its
incorrect count, keeping `correct` and `avg_time`. -/
theorem eval_answer_frame (stats : StatsMap) (character correct_name : String)
    (options : List String) (answer : Char) (elapsed : ℚ)
    (stats2 : StatsMap) (b : Bool)
    (h : eval_answer stats character correct_name options answer elapsed =
      some (stats2, b)) :
    (∀ c : String, c ≠ character →
      List.lookup c stats2 = List.lookup c stats) ∧
    (b = false → ∀ r : StatRecord, List.lookup character stats = some r →
      List.lookup character stats2 =
        some ⟨r.correct, r.incorrect + 1, r.avg_time⟩) := by
  unfold eval_answer at h
  split at h
  · simp at h
  next opt hopt =>
    by_cases hc : opt = correct_name
    · rw [if_pos hc] at h
      simp only [Option.map_eq_some'] at h
      obtain ⟨m2, hu, hmb⟩ := h
      injection hmb with hA hB
      subst hA
      subst hB
      refine ⟨fun c hne => upd_stats_lookup_ne stats character c _ _ hu hne,
        fun hb => by cases hb⟩
    · rw [if_neg hc] at h
      simp only [Option.map_eq_some'] at h
      obtain ⟨m2, hu, hmb⟩ := h
      injection hmb with hA hB
      subst hA
      subst hB
      refine ⟨fun c hne => upd_stats_lookup_ne stats character c _ _ hu hne,
        fun _ r hr => ?_⟩
      have := upd_stats_lookup_eq stats character incorrect_update _ r hu hr
      simpa [incorrect_update] using this

/-- C10 witness: on a two-character map, a wrong answer for `"ა"` leaves
`"ბ"` untouched and only bumps the incorrect count of `"ა"`. -/
theorem eval_answer_frame_witness :
    eval_answer [("ა", ⟨0, 0, AvgTime.null⟩), ("ბ", ⟨2, 3, AvgTime.val 1⟩)]
        "ა" "[a]   ani"
        ["[a]   ani", "[b]   bani", "[g]   gani", "[d]   doni", "[ɛ]   eni"]
        '2' 1 =
      some ([("ა", ⟨0, 1, AvgTime.null⟩), ("ბ", ⟨2, 3, AvgTime.val 1⟩)], false) ∧
    List.lookup "ბ"
        [("ა", (⟨0, 1, AvgTime.null⟩ : StatRecord)), ("ბ", ⟨2, 3, AvgTime.val 1⟩)] =
      List.lookup "ბ"
        [("ა", (⟨0, 0, AvgTime.null⟩ : StatRecord)), ("ბ", ⟨2, 3, AvgTime.val 1⟩)] ∧
    List.lookup "ა"
        [("ა", (⟨0, 1, AvgTime.null⟩ : StatRecord)), ("ბ", ⟨2, 3, AvgTime.val 1⟩)] =
      some ⟨(⟨0, 0, AvgTime.null⟩ : StatRecord).correct,
        (⟨0, 0, AvgTime.null⟩ : StatRecord).incorrect + 1,
        (⟨0, 0, AvgTime.null⟩ : StatRecord).avg_time⟩ := by
  have h : eval_answer [("ა", ⟨0, 0, AvgTime.null⟩), ("ბ", ⟨2, 3, AvgTime.val 1⟩)]
      "ა" "[a]   ani"
      ["[a]   ani", "[b]   bani", "[g]   gani", "[d]   doni", "[ɛ]   eni"]
      '2' 1 =
      some ([("ა", ⟨0, 1, AvgTime.null⟩), ("ბ", ⟨2, 3, AvgTime.val 1⟩)], false) := by
    decide
  have hf := eval_answer_frame _ "ა" "[a]   ani" _ '2' 1 _ false h
  exact ⟨h, hf.1 "ბ" (by decide), hf.2 rfl ⟨0, 0, AvgTime.null⟩ (by decide)⟩

/-- A stats map as a mature session would hold it: every character has
a numeric average time, so `choose_character` does not crash. -/
def demo_stats : StatsMap :=
  mkhedruli_alphabet.map (fun p => (p.1, ⟨0, 0, AvgTime.val 1⟩))

/-- `demo_stats` after one incorrect answer for `"ა"`. -/
def demo_stats_after : StatsMap :=
  ("ა", ⟨0, 1, AvgTime.val 1⟩) :: demo_stats.tail

/-- C3. A run in which the user answers one question incorrectly and
then presses the exit key terminates through the `sys.exit(0)` inside
`getch`: the run ends as `exitedInGetch` with the stats file still
holding the pre-answer map, the in-memory map (with the new incorrect
count) differing from it, and no save having occurred on the exit path —
the post-loop `save_stats` of line 165 is never reached. -/
theorem run_main_exit_key_skips_save :
    run_main 2 demo_stats (FileState.valid demo_stats)
        [⟨"ა", [0, 1, 2, 3], [0, 1, 2, 3, 4], 1⟩,
          ⟨"ა", [0, 1, 2, 3], [0, 1, 2, 3, 4], 1⟩]
        ['2', '0'] =
      RunResult.exitedInGetch demo_stats_after (FileState.valid demo_stats) ∧
    demo_stats_after ≠ demo_stats ∧
    List.lookup "ა" demo_stats_after = some ⟨0, 1, AvgTime.val 1⟩ ∧
    List.lookup "ა" demo_stats = some ⟨0, 0, AvgTime.val 1⟩ := by
  refine ⟨by decide, by decide, by decide, by decide⟩

end Anbani
